import Mathlib

/-!
Verification development for the gemini test orchestrator
(`cmd/gemini/root.go`).  The worker loop (`Job`), the two per-operation
jobs (`mutationJob`, `validationJob`), the counter type (`Status`) with
its `Merge`, the partition-range construction done in `runJob`, and the
reporter's counter-handoff branch are embedded as pure Lean functions.
External effects (statement generation, session calls, context
cancellation, random draws) are parameters: each loop iteration consumes
one `IterEnv` record describing what the environment did at that
iteration.
-/

namespace Gemini

/-- Run mode constants from root.go (`writeMode`, `readMode`, `mixedMode`). -/
inductive Mode where
  | write
  | read
  | mixed
deriving DecidableEq, Repr

/-- The `Status` struct of root.go: four outcome counters. -/
structure Status where
  WriteOps : Nat
  WriteErrors : Nat
  ReadOps : Nat
  ReadErrors : Nat
deriving DecidableEq, Repr

/-- The zero value `Status{}` used by Go for a fresh counter. -/
def Status.zero : Status := ⟨0, 0, 0, 0⟩

/-- `func (r *Status) Merge(sum *Status) Status`: adds the receiver's
fields into `sum` and returns the updated `sum`. -/
def Status.Merge (r : Status) (sum : Status) : Status :=
  { WriteOps := sum.WriteOps + r.WriteOps
    WriteErrors := sum.WriteErrors + r.WriteErrors
    ReadOps := sum.ReadOps + r.ReadOps
    ReadErrors := sum.ReadErrors + r.ReadErrors }

/-- Outcome of `schema.GenMutateStmt` (nil error or not). -/
inductive GenResult where
  | ok
  | err
deriving DecidableEq, Repr

/-- Outcome of `s.Mutate` (nil error or not). -/
inductive ExecResult where
  | ok
  | err
deriving DecidableEq, Repr

/-- Outcome of `s.Check`: nil, the distinguished
`gemini.ErrReadNoDataReturned`, or any other error. -/
inductive CheckResult where
  | ok
  | noData
  | err
deriving DecidableEq, Repr

/-- `mutationJob` of root.go, parametrised by the outcomes of the two
external calls it makes.  On generation failure it increments
`WriteErrors` and returns; otherwise it increments `WriteOps` before
executing, and additionally increments `WriteErrors` if execution
fails. -/
def mutationJob (gen : GenResult) (exec : ExecResult) (testStatus : Status) : Status :=
  match gen with
  | GenResult.err => { testStatus with WriteErrors := testStatus.WriteErrors + 1 }
  | GenResult.ok =>
      let afterOp := { testStatus with WriteOps := testStatus.WriteOps + 1 }
      match exec with
      | ExecResult.ok => afterOp
      | ExecResult.err => { afterOp with WriteErrors := afterOp.WriteErrors + 1 }

/-- `validationJob` of root.go, parametrised by the outcome of
`s.Check`: nil increments `ReadOps`, `ErrReadNoDataReturned` is skipped
silently, any other error increments `ReadErrors`. -/
def validationJob (chk : CheckResult) (testStatus : Status) : Status :=
  match chk with
  | CheckResult.ok => { testStatus with ReadOps := testStatus.ReadOps + 1 }
  | CheckResult.noData => testStatus
  | CheckResult.err => { testStatus with ReadErrors := testStatus.ReadErrors + 1 }

/-- What the environment does at one iteration of the `Job` loop:
whether `ctx.Done()` is observed at the top of the iteration, the
outcomes of the external calls, and the value drawn by
`p.Rand.Intn(100000)` in mixed mode. -/
structure IterEnv where
  cancelled : Bool
  gen : GenResult
  exec : ExecResult
  chk : CheckResult
  draw : Nat
deriving DecidableEq, Repr

/-- The `switch mode` body of the `Job` loop: write mode always mutates,
read mode always validates, mixed mode classifies the random draw by
parity. -/
def jobStep (mode : Mode) (e : IterEnv) (testStatus : Status) : Status :=
  match mode with
  | Mode.write => mutationJob e.gen e.exec testStatus
  | Mode.read => validationJob e.chk testStatus
  | Mode.mixed =>
      if e.draw % 2 = 0 then mutationJob e.gen e.exec testStatus
      else validationJob e.chk testStatus

/-- How a `Job` invocation came to terminate: the `return` in the
`ctx.Done()` select case, or the fail-fast `break` out of the loop. -/
inductive ExitReason where
  | ctxDone
  | failFastBreak
deriving DecidableEq, Repr

/-- The `Job` worker loop of root.go, run over a finite prefix of
iteration environments.  Returns the list of counters sent on channel
`c`, in order, and how the loop terminated (`none` when the environment
prefix was exhausted with the loop still running).  Per iteration:
observe cancellation (returning without any further send), perform one
operation, flush-and-reset when the iteration counter `i` satisfies
`i % 1000 == 0`, then break (followed by the final post-loop send) when
`failFast` is set and the local counter shows a read error. -/
def Job (failFast : Bool) (mode : Mode) : Nat → Status → List IterEnv → List Status × Option ExitReason
  | _, _, [] => ([], none)
  | i, testStatus, e :: rest =>
      if e.cancelled then
        ([], some ExitReason.ctxDone)
      else
        let s1 := jobStep mode e testStatus
        let fl := if i % 1000 = 0 then [s1] else []
        let s2 := if i % 1000 = 0 then Status.zero else s1
        if failFast = true ∧ 0 < s2.ReadErrors then
          (fl ++ [s2], some ExitReason.failFastBreak)
        else
          let r := Job failFast mode (i + 1) s2 rest
          (fl ++ r.1, r.2)

/-- Folding received counters the way the reporter goroutine does:
`testRes = res.Merge(&testRes)` starting from the zero value. -/
def totalOf (l : List Status) : Status :=
  l.foldl (fun testRes res => Status.Merge res testRes) Status.zero

/-- Final totals of a run: every worker starts its loop at iteration 0
with a zero counter, and the reporter merges every counter the workers
flushed.  (A counter still pending in a worker when cancellation is
observed is never sent, exactly as in `Job`.) -/
def runTotals (failFast : Bool) (mode : Mode) (workers : List (List IterEnv)) : Status :=
  totalOf ((workers.map (fun envs => (Job failFast mode 0 Status.zero envs).1)).flatten)

/-- Result of the reporter's `case res := <-c` branch in `runJob`:
the new running total, whether `PrintResult` ran, whether
`cancelWorkers` was called, and whether the goroutine returned. -/
structure AggOutcome where
  total : Status
  printedTotal : Bool
  cancelledWorkers : Bool
  completed : Bool
deriving DecidableEq, Repr

/-- The reporter's counter-handoff branch in `runJob`: merge the
received counter into the running total; if the total now shows read
errors, print it, and additionally cancel the workers and return when
`failFast` is set. -/
def aggregatorStep (failFast : Bool) (testRes res : Status) : AggOutcome :=
  let t := Status.Merge res testRes
  if 0 < t.ReadErrors then
    if failFast then
      { total := t, printedTotal := true, cancelledWorkers := true, completed := true }
    else
      { total := t, printedTotal := true, cancelledWorkers := false, completed := false }
  else
    { total := t, printedTotal := false, cancelledWorkers := false, completed := false }

/-- The `gemini.PartitionRange` value built in `runJob`, with the random
source represented by the seed it is constructed from
(`rand.NewSource(int64(seed))`). -/
structure PartitionRange where
  Min : Nat
  Max : Nat
  randSeed : Int
deriving DecidableEq, Repr

/-- Construction of one worker's `PartitionRange` in `runJob`'s double
loop: `minRange = 0`, `maxRange = pkNumberPerThread`, worker `i` gets
`Min = minRange + i*maxRange`, `Max = maxRange + i*maxRange`, and a
fresh random source seeded with the global `seed`.  The table index does
not enter the construction, exactly as in the source. -/
def mkPartitionRange (seed : Int) (maxRange : Nat) (_tableIdx i : Nat) : PartitionRange :=
  { Min := 0 + i * maxRange
    Max := maxRange + i * maxRange
    randSeed := seed }

/-- Membership of a key in the half-open interval owned by a
`PartitionRange`. -/
def inRange (p : PartitionRange) (x : Nat) : Prop :=
  p.Min ≤ x ∧ x < p.Max

instance (p : PartitionRange) (x : Nat) : Decidable (inRange p x) := by
  unfold inRange
  infer_instance

/-! ### Concrete iteration environments used in witnesses -/

/-- An iteration where the operation (of either kind) succeeds. -/
def okEnv : IterEnv :=
  { cancelled := false, gen := GenResult.ok, exec := ExecResult.ok
    chk := CheckResult.ok, draw := 0 }

/-- An iteration whose mutation execution fails (generation succeeds). -/
def failWriteEnv : IterEnv :=
  { cancelled := false, gen := GenResult.ok, exec := ExecResult.err
    chk := CheckResult.ok, draw := 0 }

/-- An iteration whose check returns a genuine error. -/
def errReadEnv : IterEnv :=
  { cancelled := false, gen := GenResult.ok, exec := ExecResult.ok
    chk := CheckResult.err, draw := 0 }

/-- An iteration at whose start the context is observed cancelled. -/
def cancelEnv : IterEnv :=
  { cancelled := true, gen := GenResult.ok, exec := ExecResult.err
    chk := CheckResult.ok, draw := 0 }

/-! ### Step equations for the worker loop -/

/-- On a cancelled iteration the loop returns immediately: nothing more
is sent on the channel. -/
lemma Job_cons_cancelled (ff : Bool) (mode : Mode) (i : Nat) (s : Status)
    (e : IterEnv) (rest : List IterEnv) (hc : e.cancelled = true) :
    Job ff mode i s (e :: rest) = ([], some ExitReason.ctxDone) := by
  simp [Job, hc]

/-- On a flush iteration (`i % 1000 == 0`) the accumulated counter,
including the current operation, is sent and the loop continues with a
zero counter; the fail-fast break cannot fire here because the counter
was just reset. -/
lemma Job_cons_flush (ff : Bool) (mode : Mode) (i : Nat) (s : Status)
    (e : IterEnv) (rest : List IterEnv) (hc : e.cancelled = false)
    (hi : i % 1000 = 0) :
    Job ff mode i s (e :: rest) =
      (jobStep mode e s :: (Job ff mode (i + 1) Status.zero rest).1,
       (Job ff mode (i + 1) Status.zero rest).2) := by
  simp [Job, hc, hi, Status.zero]

/-- On a non-flush iteration where the fail-fast break does not fire,
nothing is sent and the loop carries the accumulated counter. -/
lemma Job_cons_cont (ff : Bool) (mode : Mode) (i : Nat) (s : Status)
    (e : IterEnv) (rest : List IterEnv) (hc : e.cancelled = false)
    (hi : ¬ i % 1000 = 0)
    (hb : ¬ (ff = true ∧ 0 < (jobStep mode e s).ReadErrors)) :
    Job ff mode i s (e :: rest) = Job ff mode (i + 1) (jobStep mode e s) rest := by
  simp [Job, hc, hi, hb]

/-- On a non-flush iteration with fail-fast set and a read error in the
local counter, the loop breaks and performs the final post-loop send of
the pending counter. -/
lemma Job_cons_break (mode : Mode) (i : Nat) (s : Status)
    (e : IterEnv) (rest : List IterEnv) (hc : e.cancelled = false)
    (hi : ¬ i % 1000 = 0) (hb : 0 < (jobStep mode e s).ReadErrors) :
    Job true mode i s (e :: rest) =
      ([jobStep mode e s], some ExitReason.failFastBreak) := by
  simp [Job, hc, hi, hb]

/-! ### Invariant lemmas over flushed counters -/

/-- Every counter a worker flushes satisfies any predicate that holds
of the initial counter and the zero counter and is preserved by each
iteration's operation. -/
lemma Job_flush_invariant (P : Status → Prop) (ff : Bool) (mode : Mode) :
    ∀ (envs : List IterEnv) (i : Nat) (s : Status),
      P s → P Status.zero →
      (∀ e s', e ∈ envs → P s' → P (jobStep mode e s')) →
      ∀ f ∈ (Job ff mode i s envs).1, P f := by
  intro envs
  induction envs with
  | nil =>
      intro i s _ _ _ f hf
      simp [Job] at hf
  | cons e rest ih =>
      intro i s hs hz hstep f hf
      have hstepP : P (jobStep mode e s) :=
        hstep e s (List.mem_cons_self e rest) hs
      by_cases hc : e.cancelled = true
      · rw [Job_cons_cancelled ff mode i s e rest hc] at hf
        simp at hf
      · have hc' : e.cancelled = false := by
          simpa using hc
        by_cases hi : i % 1000 = 0
        · rw [Job_cons_flush ff mode i s e rest hc' hi] at hf
          rcases List.mem_cons.mp hf with hf | hf
          · exact hf ▸ hstepP
          · exact ih (i + 1) Status.zero hz hz
              (fun e' s' he' hs' => hstep e' s' (List.mem_cons_of_mem e he') hs') f hf
        · by_cases hb : ff = true ∧ 0 < (jobStep mode e s).ReadErrors
          · have hff : ff = true := hb.1
            subst hff
            rw [Job_cons_break mode i s e rest hc' hi hb.2] at hf
            rcases List.mem_cons.mp hf with hf | hf
            · exact hf ▸ hstepP
            · simp at hf
          · rw [Job_cons_cont ff mode i s e rest hc' hi hb] at hf
            exact ih (i + 1) (jobStep mode e s) hstepP hz
              (fun e' s' he' hs' => hstep e' s' (List.mem_cons_of_mem e he') hs') f hf

/-- A predicate preserved by `Merge` and holding of the accumulator and
every list element holds of the reporter's fold. -/
lemma foldl_merge_invariant (P : Status → Prop)
    (hP : ∀ a b, P a → P b → P (Status.Merge a b)) :
    ∀ (l : List Status) (acc : Status), P acc → (∀ f ∈ l, P f) →
      P (l.foldl (fun testRes res => Status.Merge res testRes) acc) := by
  intro l
  induction l with
  | nil =>
      intro acc hacc _
      simpa using hacc
  | cons a t ih =>
      intro acc hacc hl
      simp only [List.foldl_cons]
      exact ih (Status.Merge a acc) (hP a acc (hl a (by simp)) hacc)
        (fun f hf => hl f (by simp [hf]))

/-- The `WriteOps` field of the reporter's fold is the sum of the
`WriteOps` fields of the flushed counters. -/
lemma foldl_merge_writeOps :
    ∀ (l : List Status) (acc : Status),
      (l.foldl (fun testRes res => Status.Merge res testRes) acc).WriteOps =
        acc.WriteOps + (l.map Status.WriteOps).sum := by
  intro l
  induction l with
  | nil =>
      intro acc
      simp
  | cons a t ih =>
      intro acc
      simp only [List.foldl_cons, List.map_cons, List.sum_cons]
      rw [ih]
      simp [Status.Merge]
      omega

/-- Number of counters flushed by an uncancelled, non-fail-fast run of
`n` iterations starting at iteration index `i`: one per index in
`[i, i + n)` divisible by 1000. -/
lemma Job_flush_count (mode : Mode) :
    ∀ (envs : List IterEnv) (i : Nat) (s : Status),
      (∀ e ∈ envs, e.cancelled = false) →
      (Job false mode i s envs).1.length =
        (i + envs.length + 999) / 1000 - (i + 999) / 1000 := by
  intro envs
  induction envs with
  | nil =>
      intro i s _
      simp [Job]
  | cons e rest ih =>
      intro i s hall
      have hc : e.cancelled = false := hall e (List.mem_cons_self e rest)
      have hrest : ∀ e' ∈ rest, e'.cancelled = false :=
        fun e' he' => hall e' (List.mem_cons_of_mem e he')
      by_cases hi : i % 1000 = 0
      · rw [Job_cons_flush false mode i s e rest hc hi]
        simp only [List.length_cons]
        rw [ih (i + 1) Status.zero hrest]
        omega
      · rw [Job_cons_cont false mode i s e rest hc hi (by simp)]
        rw [ih (i + 1) (jobStep mode e s) hrest]
        simp only [List.length_cons]
        omega

/-! ### Claim theorems: per-operation jobs, merge, aggregator, partitions -/

/-- Claim C4: merging two `Status` counters is field-wise addition of
the four fields, and the merge operation is associative and
commutative. -/
theorem merge_fieldwise_assoc_comm :
    (∀ r sum : Status,
      (Status.Merge r sum).WriteOps = sum.WriteOps + r.WriteOps ∧
      (Status.Merge r sum).WriteErrors = sum.WriteErrors + r.WriteErrors ∧
      (Status.Merge r sum).ReadOps = sum.ReadOps + r.ReadOps ∧
      (Status.Merge r sum).ReadErrors = sum.ReadErrors + r.ReadErrors) ∧
    (∀ a b : Status, Status.Merge a b = Status.Merge b a) ∧
    (∀ a b c : Status, Status.Merge a (Status.Merge b c) = Status.Merge (Status.Merge a b) c) := by
  refine ⟨fun r sum => ⟨rfl, rfl, rfl, rfl⟩, fun a b => ?_, fun a b c => ?_⟩ <;>
    simp only [Status.Merge, Status.mk.injEq] <;> omega

/-- Claim C5: a validation with a nil check result increments `ReadOps`
only; the distinguished "no data returned" result changes no counter;
any other error increments `ReadErrors` only. -/
theorem validationJob_accounting :
    ∀ s : Status,
      ((validationJob CheckResult.ok s).ReadOps = s.ReadOps + 1 ∧
       (validationJob CheckResult.ok s).WriteOps = s.WriteOps ∧
       (validationJob CheckResult.ok s).WriteErrors = s.WriteErrors ∧
       (validationJob CheckResult.ok s).ReadErrors = s.ReadErrors) ∧
      validationJob CheckResult.noData s = s ∧
      ((validationJob CheckResult.err s).ReadErrors = s.ReadErrors + 1 ∧
       (validationJob CheckResult.err s).WriteOps = s.WriteOps ∧
       (validationJob CheckResult.err s).WriteErrors = s.WriteErrors ∧
       (validationJob CheckResult.err s).ReadOps = s.ReadOps) := by
  intro s
  simp [validationJob]

/-- Claim C10: a mutation leaves both read counters unchanged, whatever
the generation and execution outcomes, and a validation leaves both
write counters unchanged, whatever the check outcome. -/
theorem mutation_validation_frame :
    ∀ (gen : GenResult) (exec : ExecResult) (chk : CheckResult) (s : Status),
      (mutationJob gen exec s).ReadOps = s.ReadOps ∧
      (mutationJob gen exec s).ReadErrors = s.ReadErrors ∧
      (validationJob chk s).WriteOps = s.WriteOps ∧
      (validationJob chk s).WriteErrors = s.WriteErrors := by
  intro gen exec chk s
  cases gen <;> cases exec <;> cases chk <;> simp [mutationJob, validationJob]

/-- Claim C7: on a counter handoff the aggregator merges the counter
into its running total; it prints the total exactly when the new
total's read-error count is positive; and it cancels the workers and
terminates exactly when additionally fail-fast is configured. -/
theorem aggregatorStep_spec :
    ∀ (failFast : Bool) (testRes res : Status),
      (aggregatorStep failFast testRes res).total = Status.Merge res testRes ∧
      ((aggregatorStep failFast testRes res).printedTotal = true ↔
        0 < (Status.Merge res testRes).ReadErrors) ∧
      ((aggregatorStep failFast testRes res).cancelledWorkers = true ↔
        (0 < (Status.Merge res testRes).ReadErrors ∧ failFast = true)) ∧
      ((aggregatorStep failFast testRes res).completed = true ↔
        (0 < (Status.Merge res testRes).ReadErrors ∧ failFast = true)) := by
  intro failFast testRes res
  by_cases h : 0 < (Status.Merge res testRes).ReadErrors <;>
    cases failFast <;> simp [aggregatorStep, h]

/-- Claim C9: every `PartitionRange` constructed in a run carries a
random source seeded with the same global seed, whatever the table
index and the worker index; in particular any two workers get sources
built from identical initial state. -/
theorem partitionRange_same_seed :
    ∀ (seed : Int) (maxRange t1 i1 t2 i2 : Nat),
      (mkPartitionRange seed maxRange t1 i1).randSeed = seed ∧
      (mkPartitionRange seed maxRange t1 i1).randSeed =
        (mkPartitionRange seed maxRange t2 i2).randSeed := by
  intro seed maxRange t1 i1 t2 i2
  exact ⟨rfl, rfl⟩

/-- Claim C3: within one table, worker `i` of concurrency `C` owns the
half-open interval `[i*span, (i+1)*span)`; distinct workers own
disjoint intervals; and the workers' intervals together cover exactly
`[0, C*span)`. -/
theorem partition_disjoint_cover :
    ∀ (seed : Int) (span C t i j x : Nat), i < C → j < C → i ≠ j →
      ((mkPartitionRange seed span t i).Min = i * span ∧
       (mkPartitionRange seed span t i).Max = (i + 1) * span) ∧
      ¬(inRange (mkPartitionRange seed span t i) x ∧
        inRange (mkPartitionRange seed span t j) x) ∧
      (x < C * span ↔ ∃ k, k < C ∧ inRange (mkPartitionRange seed span t k) x) := by
  intro seed span C t i j x hi hj hij
  refine ⟨⟨by simp only [mkPartitionRange]; ring, by simp only [mkPartitionRange]; ring⟩,
    ?_, ?_, ?_⟩
  · intro hcon
    simp only [inRange, mkPartitionRange, Nat.zero_add] at hcon
    obtain ⟨⟨hi1, hi2⟩, hj1, hj2⟩ := hcon
    rcases lt_or_gt_of_ne hij with hlt | hgt
    · have hstep : i * span + span ≤ j * span := by
        calc i * span + span = (i + 1) * span := by ring
        _ ≤ j * span := Nat.mul_le_mul_right span hlt
      linarith
    · have hstep : j * span + span ≤ i * span := by
        calc j * span + span = (j + 1) * span := by ring
        _ ≤ i * span := Nat.mul_le_mul_right span hgt
      linarith
  · intro hx
    have hspan : 0 < span := by
      rcases Nat.eq_zero_or_pos span with h0 | h0
      · subst h0
        simp at hx
      · exact h0
    refine ⟨x / span, (Nat.div_lt_iff_lt_mul hspan).mpr hx, ?_, ?_⟩
    · simpa [inRange, mkPartitionRange] using Nat.div_mul_le_self x span
    · have hlt := (Nat.div_lt_iff_lt_mul hspan).mp (Nat.lt_succ_self (x / span))
      have heq : (x / span + 1) * span = span + x / span * span := by ring
      simp only [inRange, mkPartitionRange]
      linarith
  · rintro ⟨k, hk, hkr⟩
    simp only [inRange, mkPartitionRange, Nat.zero_add] at hkr
    obtain ⟨hmin, hmax⟩ := hkr
    have hstep : k * span + span ≤ C * span := by
      calc k * span + span = (k + 1) * span := by ring
      _ ≤ C * span := Nat.mul_le_mul_right span hk
    linarith

/-- Witness for C3 at seed 1, span 50, concurrency 2, workers 0 and 1,
key 57. -/
theorem partition_disjoint_cover_witness :
    (((mkPartitionRange 1 50 0 0).Min = 0 * 50 ∧
      (mkPartitionRange 1 50 0 0).Max = (0 + 1) * 50) ∧
     ¬(inRange (mkPartitionRange 1 50 0 0) 57 ∧
       inRange (mkPartitionRange 1 50 0 1) 57) ∧
     (57 < 2 * 50 ↔ ∃ k, k < 2 ∧ inRange (mkPartitionRange 1 50 0 k) 57)) :=
  partition_disjoint_cover 1 50 2 0 0 1 57 (by decide) (by decide) (by decide)

/-! ### Frame helper lemmas for the two operation jobs -/

/-- A mutation never changes the two read counters. -/
lemma mutationJob_reads (gen : GenResult) (exec : ExecResult) (s : Status) :
    (mutationJob gen exec s).ReadOps = s.ReadOps ∧
    (mutationJob gen exec s).ReadErrors = s.ReadErrors := by
  cases gen <;> cases exec <;> simp [mutationJob]

/-- A validation never changes the two write counters. -/
lemma validationJob_writes (chk : CheckResult) (s : Status) :
    (validationJob chk s).WriteOps = s.WriteOps ∧
    (validationJob chk s).WriteErrors = s.WriteErrors := by
  cases chk <;> simp [validationJob]

/-- Merging preserves "both read counters are zero". -/
lemma merge_reads_zero (a b : Status) :
    a.ReadOps = 0 ∧ a.ReadErrors = 0 → b.ReadOps = 0 ∧ b.ReadErrors = 0 →
    (Status.Merge a b).ReadOps = 0 ∧ (Status.Merge a b).ReadErrors = 0 := by
  intro ha hb
  simp [Status.Merge, ha.1, ha.2, hb.1, hb.2]

/-- Merging preserves "both write counters are zero". -/
lemma merge_writes_zero (a b : Status) :
    a.WriteOps = 0 ∧ a.WriteErrors = 0 → b.WriteOps = 0 ∧ b.WriteErrors = 0 →
    (Status.Merge a b).WriteOps = 0 ∧ (Status.Merge a b).WriteErrors = 0 := by
  intro ha hb
  simp [Status.Merge, ha.1, ha.2, hb.1, hb.2]

/-- A single-worker run's totals are the fold of that worker's flushes. -/
lemma runTotals_single (ff : Bool) (mode : Mode) (envs : List IterEnv) :
    runTotals ff mode [envs] = totalOf (Job ff mode 0 Status.zero envs).1 := by
  simp [runTotals]

/-! ### Claim theorems: worker loop, flush schedule, run totals -/

/-- Claim C8: in write mode all flushed counters, hence the merged run
totals, have zero read counters; in read mode the run totals have zero
write counters. -/
theorem mode_exclusivity :
    ∀ (failFast : Bool) (workersW workersR : List (List IterEnv)),
      ((runTotals failFast Mode.write workersW).ReadOps = 0 ∧
       (runTotals failFast Mode.write workersW).ReadErrors = 0) ∧
      ((runTotals failFast Mode.read workersR).WriteOps = 0 ∧
       (runTotals failFast Mode.read workersR).WriteErrors = 0) := by
  intro ff wW wR
  constructor
  · have hmem : ∀ f ∈ (wW.map (fun envs => (Job ff Mode.write 0 Status.zero envs).1)).flatten,
        f.ReadOps = 0 ∧ f.ReadErrors = 0 := by
      intro f hf
      rcases List.mem_flatten.mp hf with ⟨l, hl, hfl⟩
      rcases List.mem_map.mp hl with ⟨envs, _, rfl⟩
      refine Job_flush_invariant (fun st => st.ReadOps = 0 ∧ st.ReadErrors = 0)
        ff Mode.write envs 0 Status.zero ⟨rfl, rfl⟩ ⟨rfl, rfl⟩ ?_ f hfl
      intro e s' _ hs'
      have hm := mutationJob_reads e.gen e.exec s'
      simp only [jobStep]
      exact ⟨hm.1.trans hs'.1, hm.2.trans hs'.2⟩
    exact foldl_merge_invariant (fun st => st.ReadOps = 0 ∧ st.ReadErrors = 0)
      merge_reads_zero _ Status.zero ⟨rfl, rfl⟩ hmem
  · have hmem : ∀ f ∈ (wR.map (fun envs => (Job ff Mode.read 0 Status.zero envs).1)).flatten,
        f.WriteOps = 0 ∧ f.WriteErrors = 0 := by
      intro f hf
      rcases List.mem_flatten.mp hf with ⟨l, hl, hfl⟩
      rcases List.mem_map.mp hl with ⟨envs, _, rfl⟩
      refine Job_flush_invariant (fun st => st.WriteOps = 0 ∧ st.WriteErrors = 0)
        ff Mode.read envs 0 Status.zero ⟨rfl, rfl⟩ ⟨rfl, rfl⟩ ?_ f hfl
      intro e s' _ hs'
      have hm := validationJob_writes e.chk s'
      simp only [jobStep]
      exact ⟨hm.1.trans hs'.1, hm.2.trans hs'.2⟩
    exact foldl_merge_invariant (fun st => st.WriteOps = 0 ∧ st.WriteErrors = 0)
      merge_writes_zero _ Status.zero ⟨rfl, rfl⟩ hmem

/-- Claim C2 counterexample: a worker that observes cancellation returns
without the final channel send.  After two successful write iterations
(the first was flushed, the second is pending in the local counter) and
a cancelled third iteration, only one counter was ever sent; the claim's
"exactly once more on any termination" would require a second send of
the pending counter. -/
theorem cancellation_no_final_flush_cex :
    Job false Mode.write 0 Status.zero [okEnv, okEnv, cancelEnv] =
      ([⟨1, 0, 0, 0⟩], some ExitReason.ctxDone) ∧
    ¬ (Job false Mode.write 0 Status.zero [okEnv, okEnv, cancelEnv]).1.length = 2 := by
  decide

/-- Claim C2 (amended): on the local fail-fast exit the worker sends its
pending counter exactly once more before completing, but on observing
cancellation it returns immediately and sends nothing further. -/
theorem termination_flush :
    ∀ (ff : Bool) (mode : Mode) (i : Nat) (s : Status) (e : IterEnv) (rest : List IterEnv)
      (mode2 : Mode) (i2 : Nat) (s2 : Status) (e2 : IterEnv) (rest2 : List IterEnv),
      e.cancelled = true → e2.cancelled = false → ¬ i2 % 1000 = 0 →
      0 < (jobStep mode2 e2 s2).ReadErrors →
      Job ff mode i s (e :: rest) = ([], some ExitReason.ctxDone) ∧
      Job true mode2 i2 s2 (e2 :: rest2) =
        ([jobStep mode2 e2 s2], some ExitReason.failFastBreak) := by
  intro ff mode i s e rest mode2 i2 s2 e2 rest2 hc hc2 hi2 hb2
  exact ⟨Job_cons_cancelled ff mode i s e rest hc,
         Job_cons_break mode2 i2 s2 e2 rest2 hc2 hi2 hb2⟩

/-- Witness for the amended C2: a cancelled first iteration sends
nothing; a failing check at iteration 1 under fail-fast sends the
pending counter once and breaks. -/
theorem termination_flush_witness :
    Job false Mode.write 0 Status.zero (cancelEnv :: []) = ([], some ExitReason.ctxDone) ∧
    Job true Mode.read 1 Status.zero (errReadEnv :: []) =
      ([jobStep Mode.read errReadEnv Status.zero], some ExitReason.failFastBreak) :=
  termination_flush false Mode.write 0 Status.zero cancelEnv [] Mode.read 1 Status.zero
    errReadEnv [] (by decide) (by decide) (by decide) (by decide)

/-- Claim C6 counterexample: the flush guard is `i % 1000 == 0` with `i`
starting at 0, so the first handoff happens after a single iteration,
not after a batch of 1000: a one-iteration run already has one flush. -/
theorem flush_first_iteration_cex :
    (Job false Mode.read 0 Status.zero [okEnv]).1 = [⟨0, 0, 1, 0⟩] ∧
    ¬ (Job false Mode.read 0 Status.zero [okEnv]).1.length = 0 := by
  decide

/-- Claim C6 (amended): handoffs happen exactly at loop indices
divisible by 1000 — after the first iteration and then after every
1000 further iterations — so an uncancelled, non-fail-fast run of `n`
iterations flushes `⌈n/1000⌉` times; and immediately after each
handoff the local counter is reset to the zero status for the rest of
the loop. -/
theorem flush_schedule :
    ∀ (mode : Mode) (s : Status) (envs : List IterEnv) (ff2 : Bool) (mode2 : Mode)
      (i2 : Nat) (s2 : Status) (e2 : IterEnv) (rest2 : List IterEnv),
      (∀ e ∈ envs, e.cancelled = false) → e2.cancelled = false → i2 % 1000 = 0 →
      (Job false mode 0 s envs).1.length = (envs.length + 999) / 1000 ∧
      Job ff2 mode2 i2 s2 (e2 :: rest2) =
        (jobStep mode2 e2 s2 :: (Job ff2 mode2 (i2 + 1) Status.zero rest2).1,
         (Job ff2 mode2 (i2 + 1) Status.zero rest2).2) := by
  intro mode s envs ff2 mode2 i2 s2 e2 rest2 hall hc2 hi2
  refine ⟨?_, Job_cons_flush ff2 mode2 i2 s2 e2 rest2 hc2 hi2⟩
  rw [Job_flush_count mode envs 0 s hall]
  omega

/-- Witness for the amended C6: a two-iteration read run flushes once,
and the flush at iteration 0 hands over the stepped counter and
continues from zero. -/
theorem flush_schedule_witness :
    (Job false Mode.read 0 Status.zero [okEnv, okEnv]).1.length =
      (([okEnv, okEnv] : List IterEnv).length + 999) / 1000 ∧
    Job false Mode.read 0 Status.zero (okEnv :: [okEnv]) =
      (jobStep Mode.read okEnv Status.zero :: (Job false Mode.read (0 + 1) Status.zero [okEnv]).1,
       (Job false Mode.read (0 + 1) Status.zero [okEnv]).2) :=
  flush_schedule Mode.read Status.zero [okEnv, okEnv] false Mode.read 0 Status.zero
    okEnv [okEnv] (by decide) (by decide) (by decide)

/-- Claim C1 counterexample: in write mode with generation succeeding
and every mutate failing, `WriteOps` is incremented before the session
call, so the report is not `writeOps == 0`; moreover the counts pending
since the last flush are dropped on cancellation, so `writeErrors` is
the flushed count (here 1), not the number of attempts in the window
(here 3). -/
theorem write_mode_all_fail_cex :
    runTotals false Mode.write [[failWriteEnv, failWriteEnv, failWriteEnv, cancelEnv]] =
      ⟨1, 1, 0, 0⟩ ∧
    ¬ (runTotals false Mode.write
        [[failWriteEnv, failWriteEnv, failWriteEnv, cancelEnv]]).WriteOps = 0 ∧
    ¬ (runTotals false Mode.write
        [[failWriteEnv, failWriteEnv, failWriteEnv, cancelEnv]]).WriteErrors = 3 := by
  decide

/-- Claim C1 (amended): for a write-mode run whose generation always
succeeds and whose mutate always fails, every attempted mutation
increments `WriteOps` and `WriteErrors` together, so the reported
totals satisfy `WriteOps = WriteErrors` (both counting the attempts
whose batch was flushed before cancellation; attempts pending at
cancellation are not reported), the read counters are zero, and after
at least one iteration `WriteOps` is positive, not zero. -/
theorem write_mode_all_fail_amended :
    ∀ (ff : Bool) (n : Nat), 0 < n →
      (runTotals ff Mode.write [List.replicate n failWriteEnv ++ [cancelEnv]]).WriteOps =
        (runTotals ff Mode.write [List.replicate n failWriteEnv ++ [cancelEnv]]).WriteErrors ∧
      (runTotals ff Mode.write [List.replicate n failWriteEnv ++ [cancelEnv]]).ReadOps = 0 ∧
      (runTotals ff Mode.write [List.replicate n failWriteEnv ++ [cancelEnv]]).ReadErrors = 0 ∧
      0 < (runTotals ff Mode.write [List.replicate n failWriteEnv ++ [cancelEnv]]).WriteOps := by
  intro ff n hn
  rw [runTotals_single ff Mode.write (List.replicate n failWriteEnv ++ [cancelEnv])]
  have hpres : ∀ e s', e ∈ List.replicate n failWriteEnv ++ [cancelEnv] →
      (s'.WriteOps = s'.WriteErrors ∧ s'.ReadOps = 0 ∧ s'.ReadErrors = 0) →
      ((jobStep Mode.write e s').WriteOps = (jobStep Mode.write e s').WriteErrors ∧
       (jobStep Mode.write e s').ReadOps = 0 ∧ (jobStep Mode.write e s').ReadErrors = 0) := by
    intro e s' he hs'
    obtain ⟨h1, h2, h3⟩ := hs'
    have hge : e.gen = GenResult.ok ∧ e.exec = ExecResult.err := by
      rcases List.mem_append.mp he with h | h
      · have hrep := List.eq_of_mem_replicate h
        subst hrep
        exact ⟨rfl, rfl⟩
      · have heq : e = cancelEnv := by simpa using h
        subst heq
        exact ⟨rfl, rfl⟩
    obtain ⟨hg, hx⟩ := hge
    simp [jobStep, mutationJob, hg, hx]
    omega
  have hflush := Job_flush_invariant
      (fun st => st.WriteOps = st.WriteErrors ∧ st.ReadOps = 0 ∧ st.ReadErrors = 0)
      ff Mode.write (List.replicate n failWriteEnv ++ [cancelEnv]) 0 Status.zero
      ⟨rfl, rfl, rfl⟩ ⟨rfl, rfl, rfl⟩ hpres
  have htot := foldl_merge_invariant
      (fun st => st.WriteOps = st.WriteErrors ∧ st.ReadOps = 0 ∧ st.ReadErrors = 0)
      (by
        intro a b ha hb
        obtain ⟨ha1, ha2, ha3⟩ := ha
        obtain ⟨hb1, hb2, hb3⟩ := hb
        refine ⟨?_, ?_, ?_⟩
        · simp only [Status.Merge]
          omega
        · simp [Status.Merge, ha2, hb2]
        · simp [Status.Merge, ha3, hb3])
      (Job ff Mode.write 0 Status.zero (List.replicate n failWriteEnv ++ [cancelEnv])).1
      Status.zero ⟨rfl, rfl, rfl⟩ hflush
  obtain ⟨ht1, ht2, ht3⟩ := htot
  refine ⟨ht1, ht2, ht3, ?_⟩
  obtain ⟨m, rfl⟩ : ∃ m, n = m + 1 := ⟨n - 1, by omega⟩
  have hexp : List.replicate (m + 1) failWriteEnv ++ [cancelEnv] =
      failWriteEnv :: (List.replicate m failWriteEnv ++ [cancelEnv]) := by
    simp [List.replicate_succ]
  rw [hexp, Job_cons_flush ff Mode.write 0 Status.zero failWriteEnv
    (List.replicate m failWriteEnv ++ [cancelEnv]) rfl rfl]
  simp only [totalOf, foldl_merge_writeOps, List.map_cons, List.sum_cons]
  have hone : (jobStep Mode.write failWriteEnv Status.zero).WriteOps = 1 := rfl
  omega

/-- Witness for the amended C1 at three failing iterations. -/
theorem write_mode_all_fail_amended_witness :
    (runTotals false Mode.write [List.replicate 3 failWriteEnv ++ [cancelEnv]]).WriteOps =
      (runTotals false Mode.write [List.replicate 3 failWriteEnv ++ [cancelEnv]]).WriteErrors ∧
    (runTotals false Mode.write [List.replicate 3 failWriteEnv ++ [cancelEnv]]).ReadOps = 0 ∧
    (runTotals false Mode.write [List.replicate 3 failWriteEnv ++ [cancelEnv]]).ReadErrors = 0 ∧
    0 < (runTotals false Mode.write [List.replicate 3 failWriteEnv ++ [cancelEnv]]).WriteOps :=
  write_mode_all_fail_amended false 3 (by decide)

end Gemini
